import Mathlib

/-!
Verification of `convert_notebooks.py`: a script that rewrites Jupyter
notebooks, replacing Google-Drive mounting boilerplate with a fixed
Borealis data-access block and rewriting hard-coded Drive paths to local
relative paths.  The Python code is shallowly embedded below: notebooks
become a `Notebook` structure, Python string operations become executable
functions over `List Char`, fallible dictionary access and JSON parsing
become `Except PyErr`.
-/

/-! ## String machinery (models Python `in`, `str.replace`, `str.endswith`) -/

/-- `isPfx needle hay`: `needle` is a prefix of `hay` (character lists). -/
def isPfx : List Char → List Char → Bool
  | [], _ => true
  | _ :: _, [] => false
  | a :: as, b :: bs => a = b && isPfx as bs

/-- `containsSub needle hay`: `needle` occurs as a contiguous sublist of
`hay`.  Models Python `needle in hay` on strings. -/
def containsSub (needle : List Char) : List Char → Bool
  | [] => needle.isEmpty
  | c :: rest => isPfx needle (c :: rest) || containsSub needle rest

/-- Python `needle in hay` for strings. -/
def containsStr (hay needle : String) : Bool :=
  containsSub needle.data hay.data

/-- One left-to-right pass of non-overlapping replacement, with fuel.
When `old` matches at the head, `old.length` characters are consumed and
`new` is emitted; fuel `hay.length` suffices because `old` is nonempty at
every call site. -/
def replFuel (old new : List Char) : Nat → List Char → List Char
  | 0, hay => hay
  | _ + 1, [] => []
  | fuel + 1, c :: rest =>
    if isPfx old (c :: rest) then new ++ replFuel old new fuel (rest.drop (old.length - 1))
    else c :: replFuel old new fuel rest

/-- Python `hay.replace(old, new)`: replaces every non-overlapping
occurrence, scanning left to right.  All patterns used by the script are
nonempty; an empty pattern is returned unchanged. -/
def strReplace (hay old new : String) : String :=
  if old.data.isEmpty then hay
  else ⟨replFuel old.data new.data hay.data.length hay.data⟩

/-- `isSfx needle hay`: `needle` is a suffix of `hay`. -/
def isSfx (needle hay : List Char) : Bool :=
  isPfx needle.reverse hay.reverse

/-- Python `s.endswith(sfx)`. -/
def endsWithStr (s sfx : String) : Bool :=
  isSfx sfx.data s.data

/-! ## Data model

A notebook document is a JSON object; the script reads only the `cells`
field of the document and the `cell_type` / `source` fields of each cell.
All other fields are opaque to the script and are modelled as association
lists of (field name, serialized field value); an absent `cells`,
`cell_type` or `source` key is `none` and dictionary access on it raises
`KeyError`, exactly as in Python. -/

/-- A cell `source`: either a bare string or a list of line strings. -/
inductive Source
  | str (s : String)
  | arr (lines : List String)
deriving DecidableEq, Repr

/-- One notebook cell.  `extra` holds all fields other than `cell_type`
and `source` (metadata, outputs, ...), never touched by the script. -/
structure Cell where
  cell_type : Option String
  source : Option Source
  extra : List (String × String)
deriving DecidableEq, Repr

/-- A notebook document.  `extra` holds all top-level fields other than
`cells` (metadata, nbformat markers, ...), never touched by the script. -/
structure Notebook where
  cells : Option (List Cell)
  extra : List (String × String)
deriving DecidableEq, Repr

/-- Python exceptions the script can raise per file: `KeyError` from a
missing dictionary key, `json.JSONDecodeError` from `json.load` on
malformed data.  Both are subclasses of `Exception` and are caught by the
batch loop. -/
inductive PyErr
  | keyError (key : String)
  | jsonDecodeError
deriving DecidableEq, Repr

/-- The bytes of a file on disk: either text that is not a valid notebook
JSON document (`json.load` raises), or a valid parsed document. -/
inductive FileContent
  | invalid (raw : String)
  | valid (nb : Notebook)
deriving DecidableEq, Repr

/-! ## Embedded constants from `convert_notebooks.py` -/

/-- The fixed Borealis replacement block (`BOREALIS_CODE`), one string
with embedded newlines, transcribed verbatim from the script (braces and
apostrophes written as `\x7b`/`\x7d`/`\x27` escapes). -/
def BOREALIS_CODE : String :=
  "# Borealis API configuration\n"
  ++ "import requests\n"
  ++ "import zipfile\n"
  ++ "\n"
  ++ "BOREALIS_SERVER = \"https://borealisdata.ca\"\n"
  ++ "\n"
  ++ "def get_public_dataset_info(persistent_id):\n"
  ++ "    \"\"\"\n"
  ++ "    Get information about a public dataset\n"
  ++ "    \"\"\"\n"
  ++ "    url = f\"\x7bBOREALIS_SERVER\x7d/api/datasets/:persistentId/\"\n"
  ++ "    params = \x7b\"persistentId\": persistent_id\x7d\n"
  ++ "\n"
  ++ "    response = requests.get(url, params=params)\n"
  ++ "\n"
  ++ "    if response.status_code == 200:\n"
  ++ "        dataset_info = response.json()\n"
  ++ "    else:\n"
  ++ "        print(f\"Cannot access dataset: \x7bresponse.status_code\x7d\")\n"
  ++ "        return None\n"
  ++ "    \"\"\"\n"
  ++ "    Get a list of files in a public dataset\n"
  ++ "    \"\"\"\n"
  ++ "    # Access the list of files from the dataset_info dictionary\n"
  ++ "    files_list = dataset_info[\x27data\x27][\x27latestVersion\x27][\x27files\x27]\n"
  ++ "\n"
  ++ "    # Create an empty list to store file information\n"
  ++ "    file_info_list = []\n"
  ++ "\n"
  ++ "    # Iterate through the files list and append file ID and filename to the list\n"
  ++ "    for file_info in files_list:\n"
  ++ "        file_id = file_info[\x27dataFile\x27][\x27id\x27]\n"
  ++ "        filename = file_info[\x27dataFile\x27][\x27filename\x27]\n"
  ++ "        file_info_list.append(\x7b\"file_id\": file_id, \"filename\": filename\x7d)\n"
  ++ "\n"
  ++ "    return file_info_list\n"
  ++ "\n"
  ++ "def download_public_file(file_id, save_path=\"./\"):\n"
  ++ "    \"\"\"\n"
  ++ "    Download a specific public file from a dataset by its file ID\n"
  ++ "    No authentication required\n"
  ++ "    \"\"\"\n"
  ++ "    url = f\"\x7bBOREALIS_SERVER\x7d/api/access/datafile/\x7bfile_id\x7d\"\n"
  ++ "\n"
  ++ "    response = requests.get(url, stream=True)\n"
  ++ "\n"
  ++ "    if response.status_code == 200:\n"
  ++ "        # Determine filename from headers or URL\n"
  ++ "        filename = None\n"
  ++ "        if \"Content-Disposition\" in response.headers:\n"
  ++ "            cd = response.headers[\"Content-Disposition\"]\n"
  ++ "            # Try to extract filename from content disposition\n"
  ++ "            if \"filename=\" in cd:\n"
  ++ "                filename = cd.split(\"filename=\")[1].strip(\x27\"\x27)\n"
  ++ "\n"
  ++ "        # Fallback to extracting from URL if header not available or malformed\n"
  ++ "        if not filename:\n"
  ++ "             filename = url.split(\"/\")[-1]\n"
  ++ "\n"
  ++ "        file_path = f\"\x7bsave_path\x7d/\x7bfilename\x7d\"\n"
  ++ "\n"
  ++ "        with open(file_path, \x27wb\x27) as f:\n"
  ++ "            for chunk in response.iter_content(chunk_size=8192):\n"
  ++ "                f.write(chunk)\n"
  ++ "\n"
  ++ "        print(f\"SUCCESS: File downloaded to \x7bfile_path\x7d\")\n"
  ++ "        return file_path\n"
  ++ "    else:\n"
  ++ "        print(f\"ERROR: \x7bresponse.status_code\x7d: File may be restricted or not found\")\n"
  ++ "        return None\n"
  ++ "\n"
  ++ "def is_zip_file(filepath):\n"
  ++ "    \"\"\"\n"
  ++ "    Checks if a file is a valid zip file.\n"
  ++ "    \"\"\"\n"
  ++ "    return zipfile.is_zipfile(filepath)\n"
  ++ "\n"
  ++ "def unzip_file(filepath, extract_path=\"./\"):\n"
  ++ "    \"\"\"\n"
  ++ "    Unzips a zip file to a specified path and returns the name of the top-level extracted folder.\n"
  ++ "    Returns None if not a zip file or extraction fails.\n"
  ++ "    \"\"\"\n"
  ++ "    if is_zip_file(filepath):\n"
  ++ "        try:\n"
  ++ "            with zipfile.ZipFile(filepath, \x27r\x27) as zip_ref:\n"
  ++ "                # Get the name of the top-level directory within the zip\n"
  ++ "                # Assumes there is a single top-level directory\n"
  ++ "                top_level_folder = None\n"
  ++ "                for file_info in zip_ref.infolist():\n"
  ++ "                    parts = file_info.filename.split(\x27/\x27)\n"
  ++ "                    if parts[0] and len(parts) > 1:\n"
  ++ "                        top_level_folder = parts[0]\n"
  ++ "                        break # Assuming the first entry gives the top-level folder\n"
  ++ "\n"
  ++ "                zip_ref.extractall(extract_path)\n"
  ++ "                print(f\"SUCCESS: Successfully unzipped \x7bfilepath\x7d to \x7bextract_path\x7d\")\n"
  ++ "                return top_level_folder\n"
  ++ "\n"
  ++ "        except Exception as e:\n"
  ++ "            print(f\"ERROR: Error unzipping \x7bfilepath\x7d: \x7be\x7d\")\n"
  ++ "            return None\n"
  ++ "    else:\n"
  ++ "        print(f\"INFO: \x7bfilepath\x7d is not a valid zip file.\")\n"
  ++ "        return None\n"
  ++ "\n"
  ++ "# Initialize Borealis dataset access\n"
  ++ "public_doi = \"doi:10.5683/SP3/H3HGWF\"\n"
  ++ "print(\"Borealis dataset initialized for animal notebook data.\")"

/-- The ordered path-mapping table (`path_mappings`), in the script's
insertion order (Python dicts preserve insertion order). -/
def path_mappings : List (String × String) :=
  [("/content/drive/MyDrive/shared-data/Notebook datafiles/", "./"),
   ("/content/drive/My Drive/shared-data/Notebook datafiles/", "./"),
   ("/content/drive/MyDrive/shared-data/", "./"),
   ("/content/drive/My Drive/shared-data/", "./"),
   ("/content/drive/", "./")]

/-! ## Single-document conversion (`convert_notebook_paths`) -/

/-- The mount-trigger test of line 162 of the script:
`'from google.colab import drive' in line or 'drive.mount(' in line`. -/
def isMountTrigger (line : String) : Bool :=
  containsStr line "from google.colab import drive" || containsStr line "drive.mount("

/-- The path-rewriting loop of lines 170-172: every table entry is tried
in order, and when its old path occurs in the (current) line, all
occurrences are replaced. -/
def applyMappings (line : String) : String :=
  path_mappings.foldl
    (fun l pm => if containsStr l pm.1 then strReplace l pm.1 pm.2 else l) line

/-- The per-line loop of lines 160-174, with the `skip_mount` flag:
a trigger line is replaced by `BOREALIS_CODE` the first time and dropped
afterwards; any other line is path-rewritten and kept. -/
def processLines : List String → Bool → List String
  | [], _ => []
  | line :: rest, skip_mount =>
    if isMountTrigger line then
      if skip_mount then processLines rest skip_mount
      else BOREALIS_CODE :: processLines rest true
    else applyMappings line :: processLines rest skip_mount

/-- Normalization of lines 152-154: a bare string source becomes a
one-element list. -/
def srcLines : Source → List String
  | .str s => [s]
  | .arr ls => ls

/-- Conversion of one cell (lines 149-176).  Accessing a missing
`cell_type` or `source` key raises `KeyError`; non-code cells are left
untouched; a code cell's `source` is replaced by the processed lines. -/
def convertCell (cell : Cell) : Except PyErr Cell :=
  match cell.cell_type with
  | none => .error (.keyError "cell_type")
  | some ct =>
    if ct = "code" then
      match cell.source with
      | none => .error (.keyError "source")
      | some src => .ok { cell with source := some (.arr (processLines (srcLines src) false)) }
    else .ok cell

/-- The cell loop: processes cells in order, propagating the first
exception (the write at line 179 never happens when any cell raises). -/
def convertCells : List Cell → Except PyErr (List Cell)
  | [] => .ok []
  | c :: cs =>
    match convertCell c with
    | .error e => .error e
    | .ok c' =>
      match convertCells cs with
      | .error e => .error e
      | .ok cs' => .ok (c' :: cs')

/-- `convert_notebook_paths` on an already-parsed document: accessing a
missing `cells` key raises `KeyError`; otherwise every cell is converted
and the document (with all other top-level fields untouched) is the new
file content. -/
def convert_notebook_paths (nb : Notebook) : Except PyErr Notebook :=
  match nb.cells with
  | none => .error (.keyError "cells")
  | some cs =>
    match convertCells cs with
    | .error e => .error e
    | .ok cs' => .ok { nb with cells := some cs' }

/-- `convert_notebook_paths` from the file on disk: `json.load` on
malformed data raises `JSONDecodeError` before any transformation. -/
def convertFile : FileContent → Except PyErr Notebook
  | .invalid _ => .error .jsonDecodeError
  | .valid nb => convert_notebook_paths nb

/-- The read-transform-write order of the script: the file is rewritten
(line 179-180) only after the whole in-memory transform succeeded; on any
exception the file content is untouched.  Returns (outcome, file content
after the call). -/
def convertFileOnDisk (fc : FileContent) : Except PyErr Unit × FileContent :=
  match convertFile fc with
  | .ok nb' => (.ok Unit.unit, .valid nb')
  | .error e => (.error e, fc)

/-! ## Batch conversion (`convert_all_notebooks`) -/

/-- Python `str(e)`: `KeyError` prints its quoted key; the decode error
message is modelled by the message `json.load` produces on non-JSON text. -/
def strOfExc : PyErr → String
  | .keyError k => "\x27" ++ k ++ "\x27"
  | .jsonDecodeError => "Expecting value: line 1 column 1 (char 0)"

/-- The error string built at line 200 of the script. -/
def errMsg (path : String) (e : PyErr) : String :=
  "ERROR: Failed to convert " ++ path ++ ": " ++ strOfExc e

/-- One step of the batch loop (lines 192-201): files not ending in
`.ipynb` are skipped; a successful conversion appends the path to the
converted list; an exception appends a message to the error list. -/
def batchStep (acc : List String × List String) (pf : String × FileContent) :
    List String × List String :=
  if endsWithStr pf.1 ".ipynb" then
    match convertFile pf.2 with
    | .ok _ => (acc.1 ++ [pf.1], acc.2)
    | .error e => (acc.1, acc.2 ++ [errMsg pf.1 e])
  else acc

/-- `convert_all_notebooks`: the walk is modelled by the list of
(path, content) pairs in visit order; returns the converted paths and the
error messages, in order. -/
def convert_all_notebooks (files : List (String × FileContent)) :
    List String × List String :=
  files.foldl batchStep ([], [])

/-! ## Serialization model

`json.dump(notebook, f, indent=2)` writes a deterministic function of the
in-memory document; field order is preserved.  The byte format is
modelled by a simple deterministic serializer in which each top-level
field contributes its own segment. -/

/-- Serialized form of one opaque field. -/
def dumpField (f : String × String) : String :=
  "\"" ++ f.1 ++ "\": " ++ f.2

/-- Serialized form of a run of opaque fields. -/
def dumpFields (fs : List (String × String)) : String :=
  String.intercalate ", " (fs.map dumpField)

/-- Serialized form of a cell source. -/
def dumpSource : Source → String
  | .str s => "\"" ++ s ++ "\""
  | .arr ls => "[" ++ String.intercalate ", " (ls.map (fun l => "\"" ++ l ++ "\"")) ++ "]"

/-- Serialized form of one cell. -/
def dumpCell (c : Cell) : String :=
  "\x7b"
  ++ (match c.cell_type with
      | some ct => "\"cell_type\": \"" ++ ct ++ "\", "
      | none => "")
  ++ (match c.source with
      | some s => "\"source\": " ++ dumpSource s ++ ", "
      | none => "")
  ++ dumpFields c.extra ++ "\x7d"

/-- Serialized form of a whole document: the `cells` segment followed by
the segment of all other top-level fields. -/
def dumpNotebook (nb : Notebook) : String :=
  "\x7b"
  ++ (match nb.cells with
      | some cs => "\"cells\": [" ++ String.intercalate ", " (cs.map dumpCell) ++ "], "
      | none => "")
  ++ dumpFields nb.extra ++ "\x7d"

/-! ## Helper lemmas -/

theorem processLines_skip (ls : List String) :
    processLines ls true = (ls.filter (fun l => !isMountTrigger l)).map applyMappings := by
  induction ls with
  | nil => rfl
  | cons l rest ih =>
    by_cases h : isMountTrigger l = true
    · simp [processLines, h, List.filter_cons, ih]
    · simp only [Bool.not_eq_true] at h
      simp [processLines, h, List.filter_cons, ih]

theorem isPfx_append (n b : List Char) : isPfx n (n ++ b) = true := by
  induction n with
  | nil => rfl
  | cons c cs ih => simp [isPfx, ih]

theorem containsSub_nil_needle (hay : List Char) : containsSub [] hay = true := by
  cases hay <;> simp [containsSub, isPfx]

theorem containsSub_middle (n a b : List Char) : containsSub n (a ++ n ++ b) = true := by
  induction a with
  | nil =>
    cases n with
    | nil => simpa using containsSub_nil_needle b
    | cons m ms =>
      simp only [List.nil_append, List.cons_append, containsSub, Bool.or_eq_true]
      exact Or.inl (isPfx_append (m :: ms) b)
  | cons c a' ih =>
    simp only [List.cons_append, containsSub, Bool.or_eq_true]
    exact Or.inr (by simpa [List.append_assoc] using ih)

/-! ## C1: one replacement block per trigger-containing cell -/

/-- C1: during single-document conversion of a code cell, the first
mount-trigger line is replaced by the fixed `BOREALIS_CODE` block, every
subsequent trigger line of the cell is dropped with nothing emitted, and
every other line is path-rewritten in place — so exactly one replacement
block is emitted per cell that contains a trigger line, at the position
of the first trigger. -/
theorem c1_first_trigger_replaced (pre : List String) (t : String) (post : List String)
    (hpre : ∀ l ∈ pre, isMountTrigger l = false)
    (ht : isMountTrigger t = true) :
    processLines (pre ++ t :: post) false =
      pre.map applyMappings
        ++ BOREALIS_CODE :: (post.filter (fun l => !isMountTrigger l)).map applyMappings := by
  induction pre with
  | nil => simp [processLines, ht, processLines_skip]
  | cons l rest ih =>
    have hl := hpre l (List.mem_cons_self l rest)
    simp [processLines, hl, ih (fun x hx => hpre x (List.mem_cons_of_mem l hx))]

/-- Witness for C1 at a concrete four-line cell. -/
theorem c1_witness :
    processLines (["import os\n"] ++ "from google.colab import drive\n" ::
        ["drive.mount(\x27/content/drive\x27)\n", "print(\x27hi\x27)\n"]) false =
      (["import os\n"] : List String).map applyMappings
        ++ BOREALIS_CODE :: ((["drive.mount(\x27/content/drive\x27)\n",
              "print(\x27hi\x27)\n"] : List String).filter
            (fun l => !isMountTrigger l)).map applyMappings :=
  c1_first_trigger_replaced ["import os\n"] "from google.colab import drive\n"
    ["drive.mount(\x27/content/drive\x27)\n", "print(\x27hi\x27)\n"]
    (by decide) (by decide)

/-! ## C2: ordered path mappings, all occurrences replaced -/

/-- C2: path mappings are applied entry by entry in the table's fixed
order (longest prefixes first), each entry replacing all occurrences of
its old substring: the long Drive prefix of
`/content/drive/MyDrive/shared-data/Notebook datafiles/foo.csv` is
rewritten to `./foo.csv` (not to `./MyDrive/shared-data/Notebook
datafiles/foo.csv`), and a line with two occurrences of an old path has
both replaced. -/
theorem c2_longest_mapping_applied :
    applyMappings "/content/drive/MyDrive/shared-data/Notebook datafiles/foo.csv" = "./foo.csv"
    ∧ applyMappings "/content/drive/MyDrive/shared-data/Notebook datafiles/foo.csv"
        ≠ "./MyDrive/shared-data/Notebook datafiles/foo.csv"
    ∧ applyMappings "a=/content/drive/x.txt b=/content/drive/y.txt"
        = "a=./x.txt b=./y.txt" := by
  refine ⟨by decide, by decide, by decide⟩

/-! ## C9: replacement block is a single multi-line source element -/

/-- The two-trigger code cell used to exhibit the shape of a converted
`source`. -/
def cellTrig : Cell :=
  { cell_type := some "code",
    source := some (.arr ["from google.colab import drive\n",
                          "drive.mount(\x27/content/drive\x27)\n"]),
    extra := [("outputs", "[]")] }

set_option maxRecDepth 40000 in
/-- C9: when a mount-trigger line is replaced, the whole fixed
replacement block becomes a single element of the cell's `source` list —
one string with embedded newlines, not one element per line — so
elements of a converted source are not guaranteed to be single lines. -/
theorem c9_block_single_element :
    convertCell cellTrig = .ok { cellTrig with source := some (.arr [BOREALIS_CODE]) }
    ∧ containsStr BOREALIS_CODE "\n" = true := by
  exact ⟨rfl, by decide⟩

/-! ## C3: idempotence on already-converted documents -/

/-- The spec's "already-converted" condition on a line: no mount trigger
and no occurrence of any old path of the mapping table. -/
def lineClean (l : String) : Bool :=
  !isMountTrigger l && path_mappings.all (fun pm => !containsStr l pm.1)

/-- `lineClean` for every line of a code cell (non-code cells impose
nothing). -/
def cleanCell (c : Cell) : Bool :=
  match c.cell_type, c.source with
  | some ct, some src => if ct = "code" then (srcLines src).all lineClean else true
  | _, _ => true

/-- `cleanCell` for every cell of the document. -/
def cleanNb (nb : Notebook) : Bool :=
  match nb.cells with
  | some cs => cs.all cleanCell
  | none => true

theorem foldl_mappings_id (ms : List (String × String)) (l : String)
    (h : ∀ pm ∈ ms, containsStr l pm.1 = false) :
    ms.foldl (fun l pm => if containsStr l pm.1 then strReplace l pm.1 pm.2 else l) l = l := by
  induction ms with
  | nil => rfl
  | cons pm rest ih =>
    have h1 := h pm (List.mem_cons_self pm rest)
    rw [List.foldl_cons, if_neg (by simp [h1])]
    exact ih (fun q hq => h q (List.mem_cons_of_mem pm hq))

theorem lineClean_split (l : String) (h : lineClean l = true) :
    isMountTrigger l = false ∧ ∀ pm ∈ path_mappings, containsStr l pm.1 = false := by
  simp only [lineClean, Bool.and_eq_true, Bool.not_eq_true', List.all_eq_true] at h
  exact h

theorem applyMappings_clean (l : String) (h : lineClean l = true) : applyMappings l = l :=
  foldl_mappings_id path_mappings l (lineClean_split l h).2

theorem processLines_clean (ls : List String) (b : Bool)
    (h : ∀ l ∈ ls, lineClean l = true) :
    processLines ls b = ls := by
  induction ls with
  | nil => rfl
  | cons l rest ih =>
    have hl := h l (List.mem_cons_self l rest)
    simp [processLines, (lineClean_split l hl).1, applyMappings_clean l hl,
      ih (fun x hx => h x (List.mem_cons_of_mem l hx))]

theorem convertCell_noncode (c : Cell) (ct : String) (hct : c.cell_type = some ct)
    (hne : ct ≠ "code") : convertCell c = .ok c := by
  simp [convertCell, hct, hne]

theorem convertCell_notype (c : Cell) (hct : c.cell_type = none) :
    convertCell c = .error (.keyError "cell_type") := by
  simp [convertCell, hct]

theorem convertCell_nosrc (c : Cell) (hct : c.cell_type = some "code")
    (hsrc : c.source = none) :
    convertCell c = .error (.keyError "source") := by
  simp [convertCell, hct, hsrc]

theorem convertCell_code (c : Cell) (src : Source) (hct : c.cell_type = some "code")
    (hsrc : c.source = some src) :
    convertCell c = .ok { c with source := some (.arr (processLines (srcLines src) false)) } := by
  simp [convertCell, hct, hsrc]

theorem convertCell_clean (c c' : Cell) (hc : cleanCell c = true)
    (h : convertCell c = .ok c') : convertCell c' = .ok c' := by
  cases hct : c.cell_type with
  | none => simp [convertCell, hct] at h
  | some ct =>
    by_cases hcode : ct = "code"
    · subst hcode
      cases hsrc : c.source with
      | none => simp [convertCell, hct, hsrc] at h
      | some src =>
        have hlines : ∀ l ∈ srcLines src, lineClean l = true := by
          simp only [cleanCell, hct, hsrc, if_pos, List.all_eq_true] at hc
          exact hc
        have hpl : processLines (srcLines src) false = srcLines src :=
          processLines_clean _ _ hlines
        rw [convertCell_code c src hct hsrc, hpl] at h
        have hc' : ({ c with source := some (.arr (srcLines src)) } : Cell) = c' := by
          simpa using h
        subst hc'
        rw [convertCell_code _ (.arr (srcLines src)) (by simpa using hct) rfl]
        rw [show srcLines (Source.arr (srcLines src)) = srcLines src from rfl, hpl]
    · have hcc := convertCell_noncode c ct hct hcode
      rw [hcc] at h
      have hc' : c = c' := by simpa using h
      subst hc'
      exact hcc

theorem convertCells_clean : ∀ cs cs' : List Cell, (∀ c ∈ cs, cleanCell c = true) →
    convertCells cs = .ok cs' → convertCells cs' = .ok cs' := by
  intro cs
  induction cs with
  | nil =>
    intro cs' _ h
    simp [convertCells] at h
    subst h
    rfl
  | cons c rest ih =>
    intro cs' hc h
    cases h1 : convertCell c with
    | error e => simp [convertCells, h1] at h
    | ok c1 =>
      cases h2 : convertCells rest with
      | error e => simp [convertCells, h1, h2] at h
      | ok rest1 =>
        have hcs' : c1 :: rest1 = cs' := by simpa [convertCells, h1, h2] using h
        subst hcs'
        have hcc := convertCell_clean c c1 (hc c (List.mem_cons_self c rest)) h1
        have hrest := ih rest1 (fun x hx => hc x (List.mem_cons_of_mem c hx)) h2
        simp [convertCells, hcc, hrest]

/-- C3: single-document conversion is idempotent on already-converted
documents: when no code-cell line contains a mount trigger or an old
path, converting the once-converted document again returns it unchanged,
so the serialized file content is also unchanged. -/
theorem c3_idempotent (nb nb' nb'' : Notebook)
    (hclean : cleanNb nb = true)
    (h1 : convert_notebook_paths nb = .ok nb')
    (h2 : convert_notebook_paths nb' = .ok nb'') :
    nb'' = nb' ∧ dumpNotebook nb'' = dumpNotebook nb' := by
  have key : convert_notebook_paths nb' = .ok nb' := by
    cases hcs : nb.cells with
    | none => simp [convert_notebook_paths, hcs] at h1
    | some cs =>
      cases hcv : convertCells cs with
      | error e => simp [convert_notebook_paths, hcs, hcv] at h1
      | ok cs1 =>
        have hnb' : ({ nb with cells := some cs1 } : Notebook) = nb' := by
          simpa [convert_notebook_paths, hcs, hcv] using h1
        have hclean' : ∀ c ∈ cs, cleanCell c = true := by
          simp only [cleanNb, hcs, List.all_eq_true] at hclean
          exact hclean
        have hcv1 : convertCells cs1 = .ok cs1 := convertCells_clean cs cs1 hclean' hcv
        rw [← hnb']
        simp [convert_notebook_paths, hcv1]
  rw [key] at h2
  have heq : nb'' = nb' := by simpa using h2.symm
  exact ⟨heq, by rw [heq]⟩

/-- An already-converted one-cell notebook, used as concrete input. -/
def nb3 : Notebook :=
  { cells := some [{ cell_type := some "code", source := some (.arr ["print(1)\n"]),
                     extra := [("id", "\"a1\"")] }],
    extra := [("nbformat", "4")] }

/-- Witness for C3 at a concrete already-converted notebook. -/
theorem c3_witness : nb3 = nb3 ∧ dumpNotebook nb3 = dumpNotebook nb3 :=
  c3_idempotent nb3 nb3 nb3 (by decide) rfl rfl

/-! ## C5: non-`cells` top-level fields are preserved -/

/-- C5: single-document conversion touches only the `cells` field: every
other top-level field of the document is carried to the output unchanged
(its value, hence also its serialized segment in the output file). -/
theorem c5_extra_fields_preserved (nb nb' : Notebook)
    (h : convert_notebook_paths nb = .ok nb') :
    nb'.extra = nb.extra ∧ dumpFields nb'.extra = dumpFields nb.extra := by
  cases hcs : nb.cells with
  | none => simp [convert_notebook_paths, hcs] at h
  | some cs =>
    cases hcv : convertCells cs with
    | error e => simp [convert_notebook_paths, hcs, hcv] at h
    | ok cs1 =>
      have hnb' : ({ nb with cells := some cs1 } : Notebook) = nb' := by
        simpa [convert_notebook_paths, hcs, hcv] using h
      rw [← hnb']
      exact ⟨rfl, rfl⟩

/-- A notebook whose single code cell contains mount triggers, plus two
opaque top-level fields. -/
def nb5 : Notebook :=
  { cells := some [cellTrig], extra := [("nbformat", "4"), ("metadata", "\x7b\x7d")] }

/-- `nb5` after conversion. -/
def nb5conv : Notebook :=
  { cells := some [{ cellTrig with source := some (.arr [BOREALIS_CODE]) }],
    extra := [("nbformat", "4"), ("metadata", "\x7b\x7d")] }

/-- Witness for C5 at a concrete notebook with a trigger cell. -/
theorem c5_witness : nb5conv.extra = nb5.extra ∧ dumpFields nb5conv.extra = dumpFields nb5.extra :=
  c5_extra_fields_preserved nb5 nb5conv rfl

/-! ## C6: non-code cells untouched, identity on non-code documents -/

theorem convertCells_noncode : ∀ cs : List Cell,
    (∀ c ∈ cs, c.cell_type ≠ some "code" ∧ c.cell_type ≠ none) →
    convertCells cs = .ok cs := by
  intro cs
  induction cs with
  | nil => intro _; rfl
  | cons c rest ih =>
    intro h
    obtain ⟨hne, hnn⟩ := h c (List.mem_cons_self c rest)
    obtain ⟨ct, hct⟩ : ∃ ct, c.cell_type = some ct := by
      cases hx : c.cell_type with
      | none => exact absurd hx hnn
      | some ct => exact ⟨ct, rfl⟩
    have hcc : convertCell c = .ok c :=
      convertCell_noncode c ct hct (by rintro rfl; exact hne hct)
    have hrest := ih (fun x hx => h x (List.mem_cons_of_mem c hx))
    simp [convertCells, hcc, hrest]

theorem convertCells_pointwise : ∀ cs cs' : List Cell, convertCells cs = .ok cs' →
    cs'.length = cs.length ∧
    ∀ i (hi : i < cs.length) (hi' : i < cs'.length),
      convertCell (cs.get ⟨i, hi⟩) = .ok (cs'.get ⟨i, hi'⟩) := by
  intro cs
  induction cs with
  | nil =>
    intro cs' h
    simp [convertCells] at h
    subst h
    exact ⟨rfl, fun i hi hi' => absurd hi (Nat.not_lt_zero i)⟩
  | cons c rest ih =>
    intro cs' h
    cases h1 : convertCell c with
    | error e => simp [convertCells, h1] at h
    | ok c1 =>
      cases h2 : convertCells rest with
      | error e => simp [convertCells, h1, h2] at h
      | ok rest1 =>
        have hcs' : c1 :: rest1 = cs' := by simpa [convertCells, h1, h2] using h
        subst hcs'
        obtain ⟨hlen, hpw⟩ := ih rest1 h2
        refine ⟨by simp [hlen], ?_⟩
        intro i hi hi'
        cases i with
        | zero => simpa using h1
        | succ n =>
          simp only [List.get_cons_succ]
          exact hpw n (by simpa using hi) (by simpa using hi')

/-- C6: a document whose cells are all non-code converts to itself (the
identity transform), and in every successful conversion each non-code
cell is left untouched at its original position, with the cell count
preserved. -/
theorem c6_noncode_identity :
    (∀ (nb : Notebook) (cs : List Cell), nb.cells = some cs →
      (∀ c ∈ cs, c.cell_type ≠ some "code" ∧ c.cell_type ≠ none) →
      convert_notebook_paths nb = .ok nb)
    ∧ (∀ (nb nb' : Notebook) (cs cs' : List Cell), nb.cells = some cs →
        convert_notebook_paths nb = .ok nb' → nb'.cells = some cs' →
        cs'.length = cs.length ∧
        ∀ i (hi : i < cs.length) (hi' : i < cs'.length),
          (cs.get ⟨i, hi⟩).cell_type ≠ some "code" →
          cs'.get ⟨i, hi'⟩ = cs.get ⟨i, hi⟩) := by
  constructor
  · intro nb cs hcs hnc
    obtain ⟨cells0, ex0⟩ := nb
    simp only at hcs
    subst hcs
    simp [convert_notebook_paths, convertCells_noncode cs hnc]
  · intro nb nb' cs cs' hcs h hcs'
    cases hcv : convertCells cs with
    | error e => simp [convert_notebook_paths, hcs, hcv] at h
    | ok cs1 =>
      have hnb' : ({ nb with cells := some cs1 } : Notebook) = nb' := by
        simpa [convert_notebook_paths, hcs, hcv] using h
      rw [← hnb'] at hcs'
      have hcs1 : cs1 = cs' := by simpa using hcs'
      subst hcs1
      obtain ⟨hlen, hpw⟩ := convertCells_pointwise cs cs1 hcv
      refine ⟨hlen, ?_⟩
      intro i hi hi' hnc
      have hcell := hpw i hi hi'
      cases hct : (cs.get ⟨i, hi⟩).cell_type with
      | none =>
        rw [convertCell_notype _ hct] at hcell
        simp at hcell
      | some ct =>
        have hne : ct ≠ "code" := by rintro rfl; exact hnc hct
        rw [convertCell_noncode _ ct hct hne] at hcell
        simpa using hcell.symm

/-- A markdown-only cell with a bare-string source. -/
def cellMd : Cell :=
  { cell_type := some "markdown", source := some (.str "# Title\n"), extra := [] }

/-- A document containing only the markdown cell. -/
def nbMd : Notebook :=
  { cells := some [cellMd], extra := [("nbformat", "4")] }

/-- Witness for C6 at a concrete markdown-only notebook. -/
theorem c6_witness : convert_notebook_paths nbMd = .ok nbMd :=
  c6_noncode_identity.1 nbMd [cellMd] rfl (by decide)

/-! ## C7: no write on parse failure -/

/-- C7: conversion is atomic with respect to parse failures: whenever the
in-memory transform raises (malformed JSON, missing `cells` key), the
error is reported and the file content on disk is unchanged; in
particular malformed data raises a decode error and a document without a
`cells` field raises a key error. -/
theorem c7_atomic_on_error :
    (∀ (fc : FileContent) (e : PyErr), convertFile fc = .error e →
       convertFileOnDisk fc = (.error e, fc))
    ∧ (∀ raw : String, convertFile (.invalid raw) = .error .jsonDecodeError)
    ∧ (∀ nb : Notebook, nb.cells = none →
        convert_notebook_paths nb = .error (.keyError "cells")) := by
  refine ⟨?_, ?_, ?_⟩
  · intro fc e h
    simp [convertFileOnDisk, h]
  · intro raw
    rfl
  · intro nb h
    simp [convert_notebook_paths, h]

/-- Witness for C7 at a concrete malformed file. -/
theorem c7_witness :
    convertFileOnDisk (.invalid "not a notebook") =
      (.error .jsonDecodeError, .invalid "not a notebook") :=
  c7_atomic_on_error.1 (.invalid "not a notebook") .jsonDecodeError rfl

/-! ## C8: source normalization (holds for code cells only) -/

/-- Discriminator: is this `source` value a list of strings? -/
def isArrSource : Option Source → Bool
  | some (.arr _) => true
  | _ => false

theorem convertCell_ok_code_arr (a c : Cell) (h : convertCell a = .ok c)
    (hcode : c.cell_type = some "code") : ∃ ls, c.source = some (Source.arr ls) := by
  cases hct : a.cell_type with
  | none =>
    rw [convertCell_notype a hct] at h
    simp at h
  | some ct =>
    by_cases hc : ct = "code"
    · subst hc
      cases hsrc : a.source with
      | none =>
        rw [convertCell_nosrc a hct hsrc] at h
        simp at h
      | some src =>
        rw [convertCell_code a src hct hsrc] at h
        have hce : ({ a with source := some (.arr (processLines (srcLines src) false)) } : Cell)
            = c := by simpa using h
        exact ⟨processLines (srcLines src) false, by rw [← hce]⟩
    · rw [convertCell_noncode a ct hct hc] at h
      have hac : a = c := by simpa using h
      subst hac
      exact absurd (Option.some.inj (hct.symm.trans hcode)) hc

theorem convertCells_mem : ∀ cs cs' : List Cell, convertCells cs = .ok cs' →
    ∀ c' ∈ cs', ∃ c ∈ cs, convertCell c = .ok c' := by
  intro cs
  induction cs with
  | nil =>
    intro cs' h c' hc'
    simp [convertCells] at h
    subst h
    simp at hc'
  | cons c rest ih =>
    intro cs' h c' hc'
    cases h1 : convertCell c with
    | error e => simp [convertCells, h1] at h
    | ok c1 =>
      cases h2 : convertCells rest with
      | error e => simp [convertCells, h1, h2] at h
      | ok rest1 =>
        have hcs' : c1 :: rest1 = cs' := by simpa [convertCells, h1, h2] using h
        subst hcs'
        rcases List.mem_cons.mp hc' with hh | hh
        · subst hh
          exact ⟨c, List.mem_cons_self c rest, h1⟩
        · obtain ⟨a, ha, hconv⟩ := ih rest1 h2 c' hh
          exact ⟨a, List.mem_cons_of_mem c ha, hconv⟩

/-- C8 counterexample: conversion leaves a markdown cell's bare-string
source as a bare string, so not every cell of the output document has a
list-of-strings `source`. -/
theorem c8_counterexample :
    convert_notebook_paths nbMd = .ok nbMd
    ∧ nbMd.cells = some [cellMd]
    ∧ isArrSource cellMd.source = false :=
  ⟨rfl, rfl, rfl⟩

/-- C8 (amended): after a successful single-document conversion, every
cell of the output whose `cell_type` is `"code"` has a `source` that is a
list of strings (a bare string was wrapped); non-code cells keep their
original `source`, which may remain a bare string. -/
theorem c8_code_source_normalized (nb nb' : Notebook) (cs' : List Cell) (c : Cell)
    (h : convert_notebook_paths nb = .ok nb') (hcs' : nb'.cells = some cs')
    (hc : c ∈ cs') (hcode : c.cell_type = some "code") :
    ∃ ls, c.source = some (Source.arr ls) := by
  cases hcs : nb.cells with
  | none => simp [convert_notebook_paths, hcs] at h
  | some cs =>
    cases hcv : convertCells cs with
    | error e => simp [convert_notebook_paths, hcs, hcv] at h
    | ok cs1 =>
      have hnb' : ({ nb with cells := some cs1 } : Notebook) = nb' := by
        simpa [convert_notebook_paths, hcs, hcv] using h
      rw [← hnb'] at hcs'
      have hcs1 : cs1 = cs' := by simpa using hcs'
      subst hcs1
      obtain ⟨a, _, hconv⟩ := convertCells_mem cs cs1 hcv c hc
      exact convertCell_ok_code_arr a c hconv hcode

/-- A code cell whose source is a bare string. -/
def cellCodeStr : Cell :=
  { cell_type := some "code", source := some (.str "x = 1\n"), extra := [] }

/-- A one-cell notebook with a bare-string code source. -/
def nbCode : Notebook :=
  { cells := some [cellCodeStr], extra := [] }

/-- The code cell of `nbCode` after conversion. -/
def cellCodeArr : Cell :=
  { cell_type := some "code", source := some (.arr ["x = 1\n"]), extra := [] }

/-- Witness for the amended C8 at a concrete notebook. -/
theorem c8_witness : ∃ ls, cellCodeArr.source = some (Source.arr ls) :=
  c8_code_source_normalized nbCode { cells := some [cellCodeArr], extra := [] }
    [cellCodeArr] cellCodeArr rfl rfl (List.mem_cons_self cellCodeArr []) rfl

/-! ## C10: missing `cell_type` / `source` keys -/

theorem convertCells_error_of_mem : ∀ (cs : List Cell) (c : Cell) (e : PyErr),
    c ∈ cs → convertCell c = .error e → ∃ e', convertCells cs = .error e' := by
  intro cs
  induction cs with
  | nil =>
    intro c e hc _
    simp at hc
  | cons a rest ih =>
    intro c e hc herr
    rcases List.mem_cons.mp hc with hh | hh
    · subst hh
      exact ⟨e, by simp [convertCells, herr]⟩
    · cases h1 : convertCell a with
      | error e1 => exact ⟨e1, by simp [convertCells, h1]⟩
      | ok a1 =>
        obtain ⟨e', he'⟩ := ih c e hh herr
        exact ⟨e', by simp [convertCells, h1, he']⟩

/-- C10: a document with a cell lacking `cell_type`, or with a code cell
lacking `source`, makes single-document conversion fail with an exception
instead of skipping the cell; and in batch conversion such a failing
`.ipynb` file contributes one error message and is not listed as
converted. -/
theorem c10_missing_fields_error :
    (∀ (nb : Notebook) (cs : List Cell) (c : Cell), nb.cells = some cs → c ∈ cs →
       c.cell_type = none → ∃ e, convert_notebook_paths nb = .error e)
    ∧ (∀ (nb : Notebook) (cs : List Cell) (c : Cell), nb.cells = some cs → c ∈ cs →
       c.cell_type = some "code" → c.source = none →
       ∃ e, convert_notebook_paths nb = .error e)
    ∧ (∀ (p : String) (nb : Notebook) (e : PyErr), endsWithStr p ".ipynb" = true →
       convert_notebook_paths nb = .error e →
       convert_all_notebooks [(p, .valid nb)] = ([], [errMsg p e])) := by
  refine ⟨?_, ?_, ?_⟩
  · intro nb cs c hcs hc hct
    obtain ⟨e', he'⟩ := convertCells_error_of_mem cs c _ hc (convertCell_notype c hct)
    exact ⟨e', by simp [convert_notebook_paths, hcs, he']⟩
  · intro nb cs c hcs hc hct hsrc
    obtain ⟨e', he'⟩ := convertCells_error_of_mem cs c _ hc (convertCell_nosrc c hct hsrc)
    exact ⟨e', by simp [convert_notebook_paths, hcs, he']⟩
  · intro p nb e hp herr
    simp [convert_all_notebooks, batchStep, convertFile, hp, herr]

/-- A cell with no `cell_type` field. -/
def cellNoType : Cell :=
  { cell_type := none, source := some (.str "x = 1\n"), extra := [] }

/-- A notebook containing the `cell_type`-less cell. -/
def nbNoType : Notebook :=
  { cells := some [cellNoType], extra := [] }

/-- Witness for C10 at a concrete notebook with a key-less cell. -/
theorem c10_witness : ∃ e, convert_notebook_paths nbNoType = .error e :=
  c10_missing_fields_error.1 nbNoType [cellNoType] cellNoType rfl
    (List.mem_cons_self cellNoType []) rfl

/-! ## C4: batch conversion isolates per-file failures -/

/-- The `.ipynb` entries of the walk, in order. -/
def ipynbFiles (files : List (String × FileContent)) : List (String × FileContent) :=
  files.filter (fun pf => endsWithStr pf.1 ".ipynb")

/-- Did the per-file conversion succeed? -/
def exOk : Except PyErr Notebook → Bool
  | .ok _ => true
  | .error _ => false

/-- Paths of the `.ipynb` files whose conversion succeeds, in walk order. -/
def succPaths : List (String × FileContent) → List String
  | [] => []
  | pf :: rest =>
    if endsWithStr pf.1 ".ipynb" then
      match convertFile pf.2 with
      | .ok _ => pf.1 :: succPaths rest
      | .error _ => succPaths rest
    else succPaths rest

/-- Error messages of the `.ipynb` files whose conversion raises, in walk
order. -/
def errMsgs : List (String × FileContent) → List String
  | [] => []
  | pf :: rest =>
    if endsWithStr pf.1 ".ipynb" then
      match convertFile pf.2 with
      | .ok _ => errMsgs rest
      | .error e => errMsg pf.1 e :: errMsgs rest
    else errMsgs rest

theorem convert_all_go : ∀ (files : List (String × FileContent))
    (acc : List String × List String),
    files.foldl batchStep acc = (acc.1 ++ succPaths files, acc.2 ++ errMsgs files) := by
  intro files
  induction files with
  | nil => intro acc; simp [succPaths, errMsgs]
  | cons pf rest ih =>
    intro acc
    by_cases hip : endsWithStr pf.1 ".ipynb" = true
    · cases hcv : convertFile pf.2 with
      | ok nb => simp [List.foldl_cons, batchStep, hip, hcv, ih, succPaths, errMsgs]
      | error e => simp [List.foldl_cons, batchStep, hip, hcv, ih, succPaths, errMsgs]
    · simp [List.foldl_cons, batchStep, hip, ih, succPaths, errMsgs]

theorem convert_all_eq (files : List (String × FileContent)) :
    convert_all_notebooks files = (succPaths files, errMsgs files) := by
  simpa using convert_all_go files ([], [])

theorem succPaths_append (xs ys : List (String × FileContent)) :
    succPaths (xs ++ ys) = succPaths xs ++ succPaths ys := by
  induction xs with
  | nil => rfl
  | cons pf rest ih =>
    by_cases hip : endsWithStr pf.1 ".ipynb" = true
    · cases hcv : convertFile pf.2 with
      | ok nb => simp [succPaths, hip, hcv, ih]
      | error e => simp [succPaths, hip, hcv, ih]
    · simp [succPaths, hip, ih]

theorem errMsgs_append (xs ys : List (String × FileContent)) :
    errMsgs (xs ++ ys) = errMsgs xs ++ errMsgs ys := by
  induction xs with
  | nil => rfl
  | cons pf rest ih =>
    by_cases hip : endsWithStr pf.1 ".ipynb" = true
    · cases hcv : convertFile pf.2 with
      | ok nb => simp [errMsgs, hip, hcv, ih]
      | error e => simp [errMsgs, hip, hcv, ih]
    · simp [errMsgs, hip, ih]

theorem succPaths_all_ok : ∀ files : List (String × FileContent),
    (∀ pf ∈ files, endsWithStr pf.1 ".ipynb" = true → exOk (convertFile pf.2) = true) →
    succPaths files = (ipynbFiles files).map Prod.fst := by
  intro files
  induction files with
  | nil => intro _; rfl
  | cons pf rest ih =>
    intro h
    have hrest := ih (fun q hq => h q (List.mem_cons_of_mem pf hq))
    by_cases hip : endsWithStr pf.1 ".ipynb" = true
    · have hok := h pf (List.mem_cons_self pf rest) hip
      cases hcv : convertFile pf.2 with
      | ok nb => simp [succPaths, hip, hcv, ipynbFiles, List.filter_cons, hrest]
      | error e => rw [hcv] at hok; simp [exOk] at hok
    · simp [succPaths, hip, ipynbFiles, List.filter_cons, hrest]

theorem errMsgs_all_ok : ∀ files : List (String × FileContent),
    (∀ pf ∈ files, endsWithStr pf.1 ".ipynb" = true → exOk (convertFile pf.2) = true) →
    errMsgs files = [] := by
  intro files
  induction files with
  | nil => intro _; rfl
  | cons pf rest ih =>
    intro h
    have hrest := ih (fun q hq => h q (List.mem_cons_of_mem pf hq))
    by_cases hip : endsWithStr pf.1 ".ipynb" = true
    · have hok := h pf (List.mem_cons_self pf rest) hip
      cases hcv : convertFile pf.2 with
      | ok nb => simp [errMsgs, hip, hcv, hrest]
      | error e => rw [hcv] at hok; simp [exOk] at hok
    · simp [errMsgs, hip, hrest]

theorem containsStr_errMsg (p : String) (e : PyErr) : containsStr (errMsg p e) p = true := by
  have h := containsSub_middle p.data "ERROR: Failed to convert ".data
    ((": " ++ strOfExc e).data)
  unfold containsStr errMsg
  simp only [String.data_append, List.append_assoc] at h ⊢
  exact h

/-- C4: batch conversion isolates per-file failures: in a walked tree
whose `.ipynb` files all convert except one failing file, the failing
file's exception becomes exactly one accumulated error message (which
names that file), every other `.ipynb` file is still processed and listed
as converted in walk order, and the number of successes is the number of
`.ipynb` files minus one. -/
theorem c4_batch_isolates_failures
    (xs ys : List (String × FileContent)) (p : String) (fc : FileContent) (e : PyErr)
    (hip : endsWithStr p ".ipynb" = true)
    (herr : convertFile fc = .error e)
    (hgood : ∀ pf ∈ xs ++ ys, endsWithStr pf.1 ".ipynb" = true →
      exOk (convertFile pf.2) = true) :
    (convert_all_notebooks (xs ++ (p, fc) :: ys)).1
        = (ipynbFiles xs).map Prod.fst ++ (ipynbFiles ys).map Prod.fst
    ∧ (convert_all_notebooks (xs ++ (p, fc) :: ys)).2 = [errMsg p e]
    ∧ (convert_all_notebooks (xs ++ (p, fc) :: ys)).1.length + 1
        = (ipynbFiles (xs ++ (p, fc) :: ys)).length
    ∧ containsStr (errMsg p e) p = true := by
  have hgx : ∀ pf ∈ xs, endsWithStr pf.1 ".ipynb" = true → exOk (convertFile pf.2) = true :=
    fun pf hpf => hgood pf (List.mem_append_left ys hpf)
  have hgy : ∀ pf ∈ ys, endsWithStr pf.1 ".ipynb" = true → exOk (convertFile pf.2) = true :=
    fun pf hpf => hgood pf (List.mem_append_right xs hpf)
  have h1 : succPaths (xs ++ (p, fc) :: ys)
      = (ipynbFiles xs).map Prod.fst ++ (ipynbFiles ys).map Prod.fst := by
    rw [succPaths_append, succPaths_all_ok xs hgx]
    congr 1
    simp [succPaths, hip, herr, succPaths_all_ok ys hgy]
  have h2 : errMsgs (xs ++ (p, fc) :: ys) = [errMsg p e] := by
    rw [errMsgs_append, errMsgs_all_ok xs hgx]
    simp [errMsgs, hip, herr, errMsgs_all_ok ys hgy]
  have h3 : (ipynbFiles (xs ++ (p, fc) :: ys)).length
      = (ipynbFiles xs).length + 1 + (ipynbFiles ys).length := by
    simp [ipynbFiles, List.filter_append, List.filter_cons, hip]
    omega
  rw [convert_all_eq]
  refine ⟨h1, h2, ?_, containsStr_errMsg p e⟩
  simp only [h1, h3, List.length_append, List.length_map]
  omega

/-- Files before the failing one in the walk: one good notebook, one
non-notebook file. -/
def xs4 : List (String × FileContent) :=
  [("a.ipynb", .valid nbCode), ("n.txt", .invalid "zz")]

/-- Files after the failing one in the walk: one good notebook. -/
def ys4 : List (String × FileContent) :=
  [("c.ipynb", .valid nbMd)]

/-- Witness for C4 at a concrete four-file walk with one malformed
notebook. -/
theorem c4_witness :
    (convert_all_notebooks (xs4 ++ ("bad.ipynb", FileContent.invalid "not json") :: ys4)).1
        = (ipynbFiles xs4).map Prod.fst ++ (ipynbFiles ys4).map Prod.fst
    ∧ (convert_all_notebooks (xs4 ++ ("bad.ipynb", FileContent.invalid "not json") :: ys4)).2
        = [errMsg "bad.ipynb" PyErr.jsonDecodeError]
    ∧ (convert_all_notebooks
          (xs4 ++ ("bad.ipynb", FileContent.invalid "not json") :: ys4)).1.length + 1
        = (ipynbFiles (xs4 ++ ("bad.ipynb", FileContent.invalid "not json") :: ys4)).length
    ∧ containsStr (errMsg "bad.ipynb" PyErr.jsonDecodeError) "bad.ipynb" = true :=
  c4_batch_isolates_failures xs4 ys4 "bad.ipynb" (.invalid "not json") .jsonDecodeError
    (by decide) rfl (by decide)
